import Mathlib

/-!
Verification development for the configuration / codec core of DDVTECH/mistlib
(src/lib/config.cpp and src/lib/json.h).

The C++ code is shallowly embedded: the option registry (a JSON::Value object,
declared in json.h as a std::map from std::string to JSON::Value, hence iterated
in key order) becomes an association list of (name, entry) pairs kept in key
order; scalar JSON values become the JVal type; process termination via exit(n)
becomes Except.error n; byte strings become lists of naturals below 256.

Notes on modelling choices, each flagged again at its definition:
- json.cpp (the implementation of JSON::Value's members) is not part of the
  sources; its members used here (isMember, operator[], append, removeMember,
  size, forEachMember, asString/asInt/asBool) are modelled from the json.h
  declarations plus the spec's description of the document type as an ordered
  mapping with thin scalar conversions.
- char signedness is implementation-defined in C++; the codec model reads the
  bytes of the std::string back as unsigned values (as on AArch64 Linux).
  All machine-integer arithmetic that can overflow (the decoder's unsigned int
  accumulator) is taken modulo 2^32 explicitly.
-/

/-- Scalar JSON values as stored in option entries: null (a default-constructed
JSON::Value), integers (long long int) and strings.
Modelled from the spec: json.cpp is not among the sources; the spec describes
values as "strings or integers" with "thin conversions" for the typed
accessors, so asString/asInt/asBool are the evident conversions. -/
inductive JVal
  | null
  | int (n : Int)
  | str (s : String)
deriving DecidableEq

/-- Modelled from the spec: JSON::Value::asString, a thin conversion
(strings unchanged, integers printed, null empty). -/
def JVal.asString : JVal → String
  | .null => ""
  | .int n => toString n
  | .str s => s

/-- Modelled from the spec: JSON::Value::asInt, a thin conversion. -/
def JVal.asInt : JVal → Int
  | .null => 0
  | .int n => n
  | .str s => s.toInt?.getD 0

/-- Modelled from the spec: JSON::Value::asBool, a thin conversion
(nonzero integers and nonempty strings are true). -/
def JVal.asBool : JVal → Bool
  | .null => false
  | .int n => n != 0
  | .str s => s != ""

/-- One option entry of the registry, with the members that config.cpp reads:
"short", "long", "short_off", "long_off", "arg", "arg_num", "value", "default"
(named dflt here since default is a Lean keyword) and "help".  A member absent
from the JSON object is none; the "value" member, when present, is an array of
scalars (every write config.cpp performs on it is an append, so no other shape
arises from the modelled operations). -/
structure OptEntry where
  short : Option String := none
  long : Option String := none
  short_off : Option String := none
  long_off : Option String := none
  arg : Option String := none
  arg_num : Option Int := none
  value : Option (List JVal) := none
  dflt : Option JVal := none
  help : String := ""
deriving DecidableEq

/-- The option registry: JSON::Value's object variant is declared in json.h as
std::map (ordered by the string key), so the registry is an association list
kept in key order; forEachMember visits it front to back. -/
abbrev Schema := List (String × OptEntry)

/-- Lookup of vals[name]: the first entry with the given key. -/
def lookupOpt : Schema → String → Option OptEntry
  | [], _ => none
  | (k, e) :: rest, n => if k = n then some e else lookupOpt rest n

/-- Membership test, JSON::Value::isMember. -/
def isMember (vals : Schema) (n : String) : Bool :=
  (lookupOpt vals n).isSome

/-- Insert-or-assign at the std::map position (vals[optname] = option). -/
def setOpt : Schema → String → OptEntry → Schema
  | [], n, e => [(n, e)]
  | (k, v) :: rest, n, e =>
    if n < k then (n, e) :: (k, v) :: rest
    else if n = k then (n, e) :: rest
    else (k, v) :: setOpt rest n e

/-- Apply a mutation to the entry with the given key (no-op when absent). -/
def updateOpt : Schema → String → (OptEntry → OptEntry) → Schema
  | [], _, _ => []
  | (k, e) :: rest, n, f =>
    if k = n then (k, f e) :: rest else (k, e) :: updateOpt rest n f

/-- JSON::Value::removeMember on the registry. -/
def removeOpt (vals : Schema) (n : String) : Schema :=
  vals.filter (fun p => p.1 != n)

/-- Append one scalar to an entry's value array (vals[n]["value"].append(v));
operator[] materialises an absent "value" member as an empty array first. -/
def appendValue (e : OptEntry) (v : JVal) : OptEntry :=
  { e with value := some (e.value.getD [] ++ [v]) }

deriving instance DecidableEq for Except

/-- Lazy placeholder step of getOption: when the entry has no "value" member a
single default-constructed JSON::Value (null) is appended.  (The source also
re-creates a "value" member that is present but not an array; that shape never
arises in the model, where value arrays are the only stored form.) -/
def ensureValue (e : OptEntry) : OptEntry :=
  if e.value.isSome then e else { e with value := some [JVal.null] }

/-- Whether the entry has a nonempty value array
(val.isMember("value") && val["value"].size()). -/
def valueNonempty (e : OptEntry) : Bool :=
  match e.value with
  | some (_ :: _) => true
  | _ => false

/-- Last element of the value array, the scalar getOption returns
(value[size - 1]); null when the array is empty. -/
def lastValOf (e : OptEntry) : JVal :=
  (e.value.getD []).getLastD JVal.null

/-! The delta-vector codec of json.h (encodeVector / decodeVector and their
4-byte variants).  Byte strings are lists of naturals below 256; the casts to
char in the encoders are the explicit mod-256 truncations; the decoders read
the chars back as unsigned bytes (char signedness is implementation-defined;
this is the unsigned-char reading, as on AArch64 Linux) and accumulate in a
32-bit unsigned counter, hence the explicit mod 2^32. -/

/-- Encoding of one element at the 2-byte width (json.h lines 115-124): while
the remaining value is at least 0xFFFF emit an 0xFFFF escape chunk and subtract
it, then emit the remainder big-endian ((char)(tmp / 256), (char)(tmp % 256)). -/
def encElem (v : Nat) : List Nat :=
  if h : 65535 ≤ v then 255 :: 255 :: encElem (v - 65535)
  else [v / 256 % 256, v % 256]
termination_by v
decreasing_by omega

/-- JSON::encodeVector over a whole sequence (iterator loop, appending the
chunks of each element in order).  The element values are naturals; the C++
local long long int tmp holds them exactly for all inputs below 2^63. -/
def encodeVector : List Nat → List Nat
  | [] => []
  | v :: rest => encElem v ++ encodeVector rest

/-- Decoder loop of JSON::decodeVector (json.h lines 129-140): consume the
input two bytes at a time, add each chunk value (input[i] << 8) + input[i+1] to
the running unsigned int total, and flush the total as one output element
whenever the chunk is not the 0xFFFF escape.  A trailing lone byte is read
against the string's terminating NUL (input[i + 1] at position size() is the
null character in C++11), and a trailing unflushed total is dropped. -/
def decodeLoop : List Nat → Nat → List Nat
  | [], _ => []
  | [b0], tmp =>
    let curLen := b0 * 256
    let tmp2 := (tmp + curLen) % 4294967296
    if curLen = 65535 then [] else [tmp2]
  | b0 :: b1 :: rest, tmp =>
    let curLen := b0 * 256 + b1
    let tmp2 := (tmp + curLen) % 4294967296
    if curLen = 65535 then decodeLoop rest tmp2 else tmp2 :: decodeLoop rest 0

/-- JSON::decodeVector: result.clear(), then the loop with total 0. -/
def decodeVector (input : List Nat) : List Nat :=
  decodeLoop input 0

/-- Encoding of one element at the 4-byte width (json.h lines 145-158): while
the remaining value is at least 0xFFFFFFFF emit a four-byte 0xFF escape chunk
and subtract, then emit the remainder big-endian.  The source writes the four
bytes as ((tmp & 0xFF000000) >> 24) and so on; on the branch value
v < 0xFFFFFFFF these mask-and-shift expressions equal the quotient-remainder
byte decompositions used here. -/
def encElem4 (v : Nat) : List Nat :=
  if h : 4294967295 ≤ v then 255 :: 255 :: 255 :: 255 :: encElem4 (v - 4294967295)
  else [v / 16777216, v / 65536 % 256, v / 256 % 256, v % 256]
termination_by v
decreasing_by omega

/-- JSON::encodeVector4 over a whole sequence. -/
def encodeVector4 : List Nat → List Nat
  | [] => []
  | v :: rest => encElem4 v ++ encodeVector4 rest

/-- Decoder loop of JSON::decodeVector4 (json.h lines 163-174): four bytes per
chunk, flushing whenever the chunk is not the 0xFFFFFFFF escape; the chunk
value and the running total live in unsigned int, hence mod 2^32.  Inputs
whose length is not a multiple of four read past the string (only the first
byte past the end is defined, as the terminating NUL, in C++); the model pads
the trailing partial chunk with zero bytes, which never arises below since the
encoders only produce whole chunks. -/
def decodeLoop4 : List Nat → Nat → List Nat
  | [], _ => []
  | [b0], tmp =>
    let curLen := (b0 * 16777216) % 4294967296
    let tmp2 := (tmp + curLen) % 4294967296
    if curLen = 4294967295 then [] else [tmp2]
  | [b0, b1], tmp =>
    let curLen := (b0 * 16777216 + b1 * 65536) % 4294967296
    let tmp2 := (tmp + curLen) % 4294967296
    if curLen = 4294967295 then [] else [tmp2]
  | [b0, b1, b2], tmp =>
    let curLen := (b0 * 16777216 + b1 * 65536 + b2 * 256) % 4294967296
    let tmp2 := (tmp + curLen) % 4294967296
    if curLen = 4294967295 then [] else [tmp2]
  | b0 :: b1 :: b2 :: b3 :: rest, tmp =>
    let curLen := (b0 * 16777216 + b1 * 65536 + b2 * 256 + b3) % 4294967296
    let tmp2 := (tmp + curLen) % 4294967296
    if curLen = 4294967295 then decodeLoop4 rest tmp2 else tmp2 :: decodeLoop4 rest 0

/-- JSON::decodeVector4: the loop with total 0. -/
def decodeVector4 (input : List Nat) : List Nat :=
  decodeLoop4 input 0

/-! The configuration manager state and its operations (config.cpp). -/

/-- Util::Config's mutable state relevant here: the option registry vals and
the cached long-option count long_count (config.h declares both; the
constructor at config.cpp line 56 sets long_count = 2). -/
structure ConfigState where
  vals : Schema
  long_count : Nat
deriving DecidableEq

/-- The recount pass of addOption (config.cpp lines 93-102): one scan over all
entries, incrementing once for a "long" member and once for a "long_off"
member. -/
def recountLongs (vals : Schema) : Nat :=
  vals.foldl (fun acc p =>
    let acc1 := if p.2.long.isSome then acc + 1 else acc
    if p.2.long_off.isSome then acc1 + 1 else acc1) 0

/-- The count the spec describes: the number of registered options with a
"long" flag plus the number with a "long_off" flag. -/
def specLongCount (vals : Schema) : Nat :=
  (vals.filter (fun p => p.2.long.isSome)).length
    + (vals.filter (fun p => p.2.long_off.isSome)).length

/-- Util::Config::addOption (config.cpp lines 87-103): store the entry under
its name (overwriting a previous entry), move a "default" member into "value"
when no "value" member is present, then recount long_count by scanning all
entries. -/
def addOption (c : ConfigState) (optname : String) (opt : OptEntry) : ConfigState :=
  let opt2 := match opt.value, opt.dflt with
    | none, some d => { opt with value := some [d], dflt := none }
    | _, _ => opt
  let vals2 := setOpt c.vals optname opt2
  { vals := vals2, long_count := recountLongs vals2 }

/-- A sequence of addOption calls, applied left to right. -/
def applyAdds (c : ConfigState) (calls : List (String × OptEntry)) : ConfigState :=
  calls.foldl (fun st p => addOption st p.1 p.2) c

/-- The state built by the constructor Util::Config(cmd, version) (config.cpp
lines 54-71): entries cmd (the command value), version (long/short v, the
library and application version values), help (long/short h) and debug
(long/short g, integer argument, the default debug level); the entries are
listed in the registry's key order.  The compile-time constants
PACKAGE_VERSION and DEBUG are parameters.  long_count is set to the literal 2,
not recounted. -/
def mkConfig (cmd ver pkgver : String) (dbg : Int) : ConfigState :=
  { vals := [
      ("cmd", { value := some [JVal.str cmd] }),
      ("debug", { long := some "debug", short := some "g", arg := some "integer",
                  help := "The debug level at which messages need to be printed.",
                  value := some [JVal.int dbg] }),
      ("help", { long := some "help", short := some "h",
                 help := "Display usage and version information, then exit." }),
      ("version", { long := some "version", short := some "v",
                    help := "Display library and application version, then exit.",
                    value := some [JVal.str pkgver, JVal.str ver] })],
    long_count := 2 }

/-- Util::Config::getOption (config.cpp lines 296-310), with the process
termination of exit(37) embedded as Except.error 37.  On a registered name the
lazy placeholder is inserted when no value array exists and the value array
(the asArray = true result; the scalar accessors take its last element) is
returned together with the possibly mutated registry. -/
def getOptionM (vals : Schema) (optname : String) : Except Nat (List JVal × Schema) :=
  match lookupOpt vals optname with
  | none => Except.error 37
  | some e =>
    let e2 := ensureValue e
    Except.ok (e2.value.getD [], updateOpt vals optname ensureValue)

/-- Util::Config::getString: the scalar result of getOption, converted with
asString. -/
def getStringM (vals : Schema) (optname : String) : Except Nat (String × Schema) :=
  (getOptionM vals optname).map (fun r => ((r.1.getLastD JVal.null).asString, r.2))

/-- Util::Config::getInteger: the scalar result of getOption, converted with
asInt. -/
def getIntegerM (vals : Schema) (optname : String) : Except Nat (Int × Schema) :=
  (getOptionM vals optname).map (fun r => ((r.1.getLastD JVal.null).asInt, r.2))

/-- Util::Config::getBool: the scalar result of getOption, converted with
asBool. -/
def getBoolM (vals : Schema) (optname : String) : Except Nat (Bool × Schema) :=
  (getOptionM vals optname).map (fun r => ((r.1.getLastD JVal.null).asBool, r.2))

/-! The positional-argument phase of Util::Config::parseArgs (config.cpp lines
275-291), modelled for command lines whose remaining tokens are all bare
(non-flag) tokens: with no flag tokens the getopt_long loop matches nothing
and leaves optind at the first token, so parseArgs reduces to the pre-scan
that computes arg_count, the positional loop and the final count check. -/

/-- The arg_count computation of the pre-scan (config.cpp lines 238-242): the
largest arg_num over entries that have an arg_num member and do not yet have a
nonempty value array. -/
def argCountOf (vals : Schema) : Int :=
  vals.foldl (fun acc p =>
    match p.2.arg_num with
    | some k => if valueNonempty p.2 then acc else if k > acc then k else acc
    | none => acc) 0

/-- One step of the positional loop (config.cpp lines 277-283): append the
token to the first entry, in registry order, whose arg_num equals the running
counter; the entry's current value array plays no part in the match. -/
def appendPositional : Schema → Int → String → Schema
  | [], _, _ => []
  | (k, e) :: rest, i, tok =>
    if e.arg_num = some i then (k, appendValue e (JVal.str tok)) :: rest
    else (k, e) :: appendPositional rest i tok

/-- The positional loop (config.cpp lines 275-286): consume the remaining
tokens in order, incrementing the counter from its start value (1 in the
source) once per token. -/
def assignPositionals : Schema → List String → Int → Schema
  | vals, [], _ => vals
  | vals, tok :: rest, i => assignPositionals (appendPositional vals i tok) rest (i + 1)

/-- Util::Config::parseArgs on a flag-free remainder: compute arg_count,
assign the positional tokens, and fail (return false) when the counter did not
pass arg_count (config.cpp lines 287-289); otherwise return true.  (On the
true path the source also copies the debug option into the static debug level,
a side effect outside the registry.) -/
def parseArgsModel (vals : Schema) (tokens : List String) : Bool × Schema :=
  let ac := argCountOf vals
  let vals2 := assignPositionals vals tokens 1
  if (1 + tokens.length : Int) ≤ ac then (false, vals2) else (true, vals2)

/-- The bound the spec describes for the failure test: the highest positional
index among entries that declare one and still lack a (nonempty) value. -/
def specHighestNeeded (vals : Schema) : Int :=
  (vals.filterMap (fun p => if valueNonempty p.2 then none else p.2.arg_num)).foldl max 0

/-- Name of the first entry, in registry order, whose arg_num equals i. -/
def firstArgNumName (vals : Schema) (i : Int) : Option String :=
  (vals.find? (fun p => p.2.arg_num == some i)).map (fun p => p.1)

/-- The tokens, among tokens numbered consecutively from start index s, that
the positional loop hands to the entry named n: those whose number's first
arg_num match is n. -/
def tokensForFrom : Schema → List String → Int → String → List JVal
  | _, [], _, _ => []
  | vals, tok :: rest, s, n =>
    (if firstArgNumName vals s = some n then [JVal.str tok] else [])
      ++ tokensForFrom vals rest (s + 1) n

/-- Append a list of scalars to an entry's value array in order. -/
def appendAll (e : OptEntry) (l : List JVal) : OptEntry :=
  l.foldl appendValue e

/-- A registry with a single positional entry that already carries a preset
value, for exercising the positional loop. -/
def c2vals : Schema :=
  [("count", { arg_num := some 1, value := some [JVal.str "preset"] })]

/-- The constructed configuration of the C6 scenario: the standard constructor
state plus one option "count" with positional index 1 and no preset value,
written out in registry (key) order; c6vals_eq_addOption checks it against
addOption on the constructor state. -/
def c6vals : Schema :=
  [("cmd", { value := some [JVal.str "testcmd"] }),
   ("count", { arg_num := some 1, arg := some "string", help := "The count." }),
   ("debug", { long := some "debug", short := some "g", arg := some "integer",
               help := "The debug level at which messages need to be printed.",
               value := some [JVal.int 4] }),
   ("help", { long := some "help", short := some "h",
              help := "Display usage and version information, then exit." }),
   ("version", { long := some "version", short := some "v",
                 help := "Display library and application version, then exit.",
                 value := some [JVal.str "2.0.2", JVal.str "1.0"] })]

/-! The option-matching switch of parseArgs (claim C5). -/

/-- Console output events of the switch: printHelp(std::cout) and the two-line
version banner (library and application version).  The rendering of the help
text itself is printHelpLines below (claim C7); here each print is one event. -/
inductive OutEvent
  | helpText
  | versionBanner
deriving DecidableEq

/-- First character of a string, as in asString()[0]; for the empty string
std::string's operator[] at size() yields the null character. -/
def firstChar (s : String) : Char :=
  s.data.headD (Char.ofNat 0)

/-- Whether an entry's "short" flag letter equals the matched option code
(val.isMember("short") && val["short"].asString()[0] == opt). -/
def shortMatches (e : OptEntry) (c : Char) : Bool :=
  match e.short with
  | some s => firstChar s == c
  | none => false

/-- Whether an entry's "short_off" flag letter equals the matched code. -/
def shortOffMatches (e : OptEntry) (c : Char) : Bool :=
  match e.short_off with
  | some s => firstChar s == c
  | none => false

/-- The default branch of the switch (config.cpp lines 256-270): scan the
registry in order for the first entry whose short (then short_off) letter
equals the matched code; append the option argument (or integer 1) for an
on-flag, integer 0 for an off-flag, and stop the scan there. -/
def applyShortFlag : Schema → Char → String → Schema
  | [], _, _ => []
  | (k, e) :: rest, c, oa =>
    if shortMatches e c then
      (k, appendValue e (if e.arg.isSome then JVal.str oa else JVal.int 1)) :: rest
    else if shortOffMatches e c then
      (k, appendValue e (JVal.int 0)) :: rest
    else (k, e) :: applyShortFlag rest c oa

/-- One iteration of the getopt loop body (config.cpp lines 245-272): the
switch on the matched option code.  Cases 'h' and '?' print the help text and
fall through (no break) into case 'v', which prints the version banner and
calls exit(1) — embedded as Except.error of the exit status paired with the
output events in print order.  Every other code runs the registry scan. -/
def processOpt (vals : Schema) (c : Char) (oa : String) :
    Except (Nat × List OutEvent) Schema :=
  if c = 'h' ∨ c = '?' then
    Except.error (1, [OutEvent.helpText, OutEvent.versionBanner])
  else if c = 'v' then
    Except.error (1, [OutEvent.versionBanner])
  else
    Except.ok (applyShortFlag vals c oa)

/-! Listener resolution of serveThreadedSocket / serveForkedSocket (claim C3). -/

/-- The two listener kinds a Socket::Server can be built from here: a local
(Unix) socket under the temporary folder, or a TCP port/interface pair. -/
inductive ListenerSpec
  | localSock (path : String)
  | tcp (port : Int) (iface : String)
deriving DecidableEq

/-- Pure reading of getString(n): the scalar conversion of the last value.
The placeholder getOption may insert does not change the result (the
placeholder itself is the last value then, and asString null = ""), and the
branch conditions of the resolution read different entries, so the mutation is
immaterial here; the none branch is unreachable under the isMember guards. -/
def readStringPure (vals : Schema) (n : String) : String :=
  match lookupOpt vals n with
  | some e => (lastValOf e).asString
  | none => ""

/-- Pure reading of getInteger(n), as readStringPure. -/
def readIntPure (vals : Schema) (n : String) : Int :=
  match lookupOpt vals n with
  | some e => (lastValOf e).asInt
  | none => 0

/-- Listener resolution shared by serveThreadedSocket (config.cpp lines
385-392) and serveForkedSocket (lines 402-409): a default-constructed (not
connected) Server, overwritten by a local socket under the temporary folder
when "socket" is registered, then overwritten again by a TCP listener when
both "listen_port" and "listen_interface" are registered — two sequential if
statements, not an if/else, so the TCP assignment wins when both apply.
The temporary folder (Util::getTmpFolder, outside these sources) is a
parameter.  none models the untouched default Server. -/
def resolveListener (tmp : String) (vals : Schema) : Option ListenerSpec :=
  let s1 := if isMember vals "socket"
    then some (ListenerSpec.localSock (tmp ++ readStringPure vals "socket"))
    else none
  if isMember vals "listen_port" && isMember vals "listen_interface"
    then some (ListenerSpec.tcp (readIntPure vals "listen_port")
        (readStringPure vals "listen_interface"))
    else s1

/-- The head of serveThreadedSocket / serveForkedSocket up to the connectivity
test (config.cpp lines 393-396 and 410-413): whether the resolved listener
connects is environment-determined (the connects oracle); with no connected
listener the function returns 1 — a plain return value (Sum.inl), not a
process stop; otherwise it proceeds to activate() and the dispatch loop with
the resolved listener (Sum.inr). -/
def serveSocketHead (connects : ListenerSpec → Bool) (tmp : String) (vals : Schema) :
    Sum Nat ListenerSpec :=
  match resolveListener tmp vals with
  | none => Sum.inl 1
  | some sp => if connects sp then Sum.inr sp else Sum.inl 1

/-- Whether an optional listener is the local-socket kind. -/
def isLocalSpec : Option ListenerSpec → Bool
  | some (ListenerSpec.localSock _) => true
  | _ => false

/-- A registry carrying all three listener options, with preset values, for
exercising the resolution. -/
def c3vals : Schema :=
  [("listen_interface", { long := some "interface", short := some "i",
                          arg := some "string", value := some [JVal.str "0.0.0.0"] }),
   ("listen_port", { long := some "port", short := some "p",
                     arg := some "integer", value := some [JVal.int 8080] }),
   ("socket", { arg := some "string", value := some [JVal.str "mysocket"] })]

/-! The dispatch loops threadServer / forkServer (claim C9). -/

/-- Per-iteration environment of a dispatch loop: the activation flag read
(is_active, written asynchronously by the signal handler), the listener's
connected() state and whether accept() yields a connected socket. -/
structure SrvEnv where
  active : Nat → Bool
  connected : Nat → Bool
  acceptOk : Nat → Bool

/-- Observable actions of the loops: spawning a detached handler thread,
forking a handler child, the 10 ms sleep on an unconnected accept, and closing
the listener on exit. -/
inductive SrvEvent
  | spawnedThread
  | forkedChild
  | slept
  | closedListener
deriving DecidableEq

/-- Util::Config::threadServer (config.cpp lines 345-363): while is_active and
the listener is connected, accept; a connected accept spawns a detached worker
thread (the worker invokes the callback and closes the connection — events
only here), otherwise sleep 10 ms; on loop exit close the listener and return
0.  The unbounded while loop takes fuel; none means the loop is still running
when the fuel ends. -/
def threadServer (env : SrvEnv) : Nat → Nat → Option (List SrvEvent × Nat)
  | _, 0 => none
  | i, fuel + 1 =>
    if env.active i && env.connected i then
      let ev := if env.acceptOk i then SrvEvent.spawnedThread else SrvEvent.slept
      match threadServer env (i + 1) fuel with
      | some (evs, r) => some (ev :: evs, r)
      | none => none
    else some ([SrvEvent.closedListener], 0)

/-- Util::Config::forkServer (config.cpp lines 365-383), the parent's view:
a connected accept forks a handler child (the child drops the listener and
runs the callback in its own process, not modelled) and the parent drops its
connection reference and continues; otherwise sleep; on loop exit close the
listener and return 0. -/
def forkServer (env : SrvEnv) : Nat → Nat → Option (List SrvEvent × Nat)
  | _, 0 => none
  | i, fuel + 1 =>
    if env.active i && env.connected i then
      let ev := if env.acceptOk i then SrvEvent.forkedChild else SrvEvent.slept
      match forkServer env (i + 1) fuel with
      | some (evs, r) => some (ev :: evs, r)
      | none => none
    else some ([SrvEvent.closedListener], 0)

/-- An environment whose activation flag is false throughout. -/
def c9env : SrvEnv :=
  { active := fun _ => false, connected := fun _ => true, acceptOk := fun _ => true }

/-! The help formatter Util::Config::printHelp (claim C7). -/

/-- The alignment measure printHelp computes for an entry's on-flag text
(config.cpp lines 110-119): long size + 4 if a "long" member exists, plus
short size + 3 if a "short" member exists. -/
def flagMeasure (e : OptEntry) : Nat :=
  (match e.long with | some l => l.length + 4 | none => 0)
  + (match e.short with | some s => s.length + 3 | none => 0)

/-- The same measure for the off-flag text (lines 120-129). -/
def offMeasure (e : OptEntry) : Nat :=
  (match e.long_off with | some l => l.length + 4 | none => 0)
  + (match e.short_off with | some s => s.length + 3 | none => 0)

/-- The measure for the positional name (lines 130-134): name size + 3 when an
"arg_num" member exists. -/
def posMeasure (p : String × OptEntry) : Nat :=
  if p.2.arg_num.isSome then p.1.length + 3 else 0

/-- The shared alignment width "longest" (lines 107-138): one pass over all
entries taking the running maximum of the three measures (each comparison in
the source is an update-if-greater, i.e. a max). -/
def computeLongest (vals : Schema) : Nat :=
  vals.foldl (fun acc p =>
    max (max (max acc (flagMeasure p.2)) (offMeasure p.2)) (posMeasure p)) 0

/-- The rendered on-flag text f (lines 150-160): "--long, -short" when both
flags exist, else whichever of "--long" / "-short" exists; none when the entry
has neither (no line is printed then). -/
def flagText (e : OptEntry) : Option String :=
  match e.long, e.short with
  | some l, some s => some ("--" ++ l ++ ", -" ++ s)
  | some l, none => some ("--" ++ l)
  | none, some s => some ("-" ++ s)
  | none, none => none

/-- The rendered off-flag text (lines 170-180). -/
def offText (e : OptEntry) : Option String :=
  match e.long_off, e.short_off with
  | some l, some s => some ("--" ++ l ++ ", -" ++ s)
  | some l, none => some ("--" ++ l)
  | none, some s => some ("-" ++ s)
  | none, none => none

/-- The padding loop (while (f.size() < longest) f.append(" ")): append spaces
up to the width. -/
def padTo (f : String) (w : Nat) : String :=
  f ++ String.mk (List.replicate (w - f.length) ' ')

/-- One help line: the padded flag/positional field and the description that
follows it ("(argtype) " prefix included when printed). -/
structure HelpLine where
  fld : String
  desc : String
deriving DecidableEq

/-- The description of a flag line (lines 164-168): "(arg) " prefix when an
"arg" member exists, then the help text. -/
def descOf (e : OptEntry) : String :=
  match e.arg with
  | some a => "(" ++ a ++ ") " ++ e.help
  | none => e.help

/-- The description of a positional line (line 195): the parenthesised arg
label is always printed; a missing "arg" member renders as the empty string
(the const operator[] of the document type on an absent member yields a
default value). -/
def posDescOf (e : OptEntry) : String :=
  "(" ++ e.arg.getD "" ++ ") " ++ e.help

/-- The help lines one entry contributes (lines 148-197): an on-flag line when
a long or short flag exists, an off-flag line when an off flag exists, and a
positional line when arg_num exists; every field is padded to the shared
width. -/
def entryLines (w : Nat) (p : String × OptEntry) : List HelpLine :=
  (match flagText p.2 with
   | some f => [{ fld := padTo f w, desc := descOf p.2 }]
   | none => [])
  ++ (match offText p.2 with
   | some f => [{ fld := padTo f w, desc := descOf p.2 }]
   | none => [])
  ++ (if p.2.arg_num.isSome then [{ fld := padTo p.1 w, desc := posDescOf p.2 }]
      else [])

/-- The per-option help lines printHelp emits, in registry order (the usage
synopsis line that precedes them has no aligned description field). -/
def printHelpLines (vals : Schema) : List HelpLine :=
  vals.flatMap (entryLines (computeLongest vals))

/-- A small schema mixing a long-flag option and a short-flag positional
option, for exercising the formatter. -/
def c7vals : Schema :=
  [("alpha", { long := some "alpha", help := "Alpha option." }),
   ("beta", { short := some "b", arg := some "integer", arg_num := some 1,
              help := "Beta." })]

/-! Util::Config::activate (claim C10). -/

/-- External actions of activate: the privilege drop (setUser with the read
username), daemonization (keepOpen true when a nonempty logfile keeps the
streams open) and the signal-handler installation. -/
inductive LifeEvent
  | setUserEv (u : String)
  | daemonizeEv (keepOpen : Bool)
  | sigInstall
deriving DecidableEq

/-- Result of activate: the registry after its mutations, the external actions
in order, and the activation flag it leaves behind. -/
structure ActResult where
  vals : Schema
  events : List LifeEvent
  is_active : Bool
deriving DecidableEq

/-- getString as a total step on a registry known to contain the name: the
scalar read plus the lazy-placeholder mutation of getOption.  (The none branch
is unreachable under the isMember guards activate places before each call;
with the name absent getString would stop the process with 37 instead.) -/
def getStringStep (vals : Schema) (n : String) : String × Schema :=
  match lookupOpt vals n with
  | some e => ((lastValOf (ensureValue e)).asString, updateOpt vals n ensureValue)
  | none => ("", vals)

/-- getBool as a total step, as getStringStep. -/
def getBoolStep (vals : Schema) (n : String) : Bool × Schema :=
  match lookupOpt vals n with
  | some e => ((lastValOf (ensureValue e)).asBool, updateOpt vals n ensureValue)
  | none => (false, vals)

/-- The username block of activate (config.cpp lines 425-428): when "username"
is registered, read it (mutating, via getString), drop privileges to it and
remove the entry. -/
def usernamePhase (vals : Schema) : Schema × List LifeEvent :=
  if isMember vals "username" then
    let r := getStringStep vals "username"
    (removeOpt r.2 "username", [LifeEvent.setUserEv r.1])
  else (vals, [])

/-- The daemonize block of activate (config.cpp lines 429-436): when
"daemonize" is registered, getBool reads it (inserting a placeholder when it
has no value yet); when true, the logfile test getString("logfile") runs
(inserting a placeholder into a value-less logfile entry), Daemonize is called
with the resulting keep-streams choice and the "daemonize" entry is removed;
when false the (possibly placeholder-extended) entry stays. -/
def daemonPhase (vals : Schema) : Schema × List LifeEvent :=
  if isMember vals "daemonize" then
    let rb := getBoolStep vals "daemonize"
    if rb.1 then
      let lg :=
        if isMember rb.2 "logfile" then
          let rs := getStringStep rb.2 "logfile"
          (rs.2, [LifeEvent.daemonizeEv (rs.1 != "")])
        else (rb.2, [LifeEvent.daemonizeEv false])
      (removeOpt lg.1 "daemonize", lg.2)
    else (rb.2, [])
  else (vals, [])

/-- Util::Config::activate (config.cpp lines 424-452): the username block,
then the daemonize block, then the signal-handler installation, finally
is_active = true. -/
def activate (vals : Schema) : ActResult :=
  let su := usernamePhase vals
  let dm := daemonPhase su.1
  { vals := dm.1, events := su.2 ++ dm.2 ++ [LifeEvent.sigInstall], is_active := true }

/-- The boolean getBool("daemonize") yields on the current registry: the
scalar conversion of the last value (false when the entry is absent or has no
value, via the null placeholder). -/
def daemonTrueNow (vals : Schema) : Bool :=
  match lookupOpt vals "daemonize" with
  | some e => (lastValOf (ensureValue e)).asBool
  | none => false

/-- A registry with daemonize preset to true (integer 1) and a logfile entry
that has no value yet — the connector defaults plus a bare logfile option. -/
def c10vals : Schema :=
  [("daemonize", { long := some "daemon", short := some "d",
                   long_off := some "nodaemon", short_off := some "n",
                   help := "Whether or not to daemonize the process after starting.",
                   value := some [JVal.int 1] }),
   ("logfile", { arg := some "string" })]

/-! Codec lemmas. -/

/-- Unfolding of the 2-byte decoder loop on one whole chunk. -/
theorem decodeLoop_cons2 (b0 b1 : Nat) (l : List Nat) (t : Nat) :
    decodeLoop (b0 :: b1 :: l) t =
      if b0 * 256 + b1 = 65535 then decodeLoop l ((t + (b0 * 256 + b1)) % 4294967296)
      else ((t + (b0 * 256 + b1)) % 4294967296) :: decodeLoop l 0 := by
  simp only [decodeLoop]

/-- Escape branch of the 2-byte element encoder. -/
theorem encElem_escape (v : Nat) (h : 65535 ≤ v) :
    encElem v = 255 :: 255 :: encElem (v - 65535) := by
  rw [encElem, dif_pos h]

/-- Final-chunk branch of the 2-byte element encoder. -/
theorem encElem_base (v : Nat) (h : ¬ 65535 ≤ v) :
    encElem v = [v / 256 % 256, v % 256] := by
  rw [encElem, dif_neg h]

/-- Decoding the chunks of one element, prefixed to further input, flushes
exactly once: the accumulated total mod 2^32.  This holds with no bound on the
element: the escape chunks accumulate without flushing and the final chunk
(the remainder, which is below the escape value) flushes. -/
theorem decodeLoop_encElem : ∀ (v : Nat) (rest : List Nat) (acc : Nat),
    decodeLoop (encElem v ++ rest) acc = ((acc + v) % 4294967296) :: decodeLoop rest 0 := by
  intro v
  induction v using Nat.strong_induction_on with
  | _ v ih =>
    intro rest acc
    by_cases h : 65535 ≤ v
    · rw [encElem_escape v h, List.cons_append, List.cons_append, decodeLoop_cons2,
        if_pos (by norm_num : (255 : Nat) * 256 + 255 = 65535)]
      have hih := ih (v - 65535) (by omega) rest ((acc + (255 * 256 + 255)) % 4294967296)
      have harith : ((acc + (255 * 256 + 255)) % 4294967296 + (v - 65535)) % 4294967296
          = (acc + v) % 4294967296 := by omega
      rw [harith] at hih
      exact hih
    · rw [encElem_base v h]
      show decodeLoop (v / 256 % 256 :: v % 256 :: rest) acc = _
      rw [decodeLoop_cons2]
      have hc : v / 256 % 256 * 256 + v % 256 = v := by omega
      rw [hc]
      have hv : ¬ v = 65535 := by omega
      rw [if_neg hv]

/-- The 2-byte codec as a whole: decoding the encoding reduces every element
modulo 2^32 (the decoder's unsigned int accumulator). -/
theorem decodeVector_encodeVector (l : List Nat) :
    decodeVector (encodeVector l) = l.map (fun v => v % 4294967296) := by
  induction l with
  | nil => rfl
  | cons v rest ih =>
    show decodeLoop (encElem v ++ encodeVector rest) 0 = _
    rw [decodeLoop_encElem]
    simpa using ih

/-- Unfolding of the 4-byte decoder loop on one whole chunk. -/
theorem decodeLoop4_cons4 (b0 b1 b2 b3 : Nat) (l : List Nat) (t : Nat) :
    decodeLoop4 (b0 :: b1 :: b2 :: b3 :: l) t =
      if (b0 * 16777216 + b1 * 65536 + b2 * 256 + b3) % 4294967296 = 4294967295 then
        decodeLoop4 l ((t + (b0 * 16777216 + b1 * 65536 + b2 * 256 + b3) % 4294967296) % 4294967296)
      else ((t + (b0 * 16777216 + b1 * 65536 + b2 * 256 + b3) % 4294967296) % 4294967296)
        :: decodeLoop4 l 0 := by
  simp only [decodeLoop4]

/-- Escape branch of the 4-byte element encoder. -/
theorem encElem4_escape (v : Nat) (h : 4294967295 ≤ v) :
    encElem4 v = 255 :: 255 :: 255 :: 255 :: encElem4 (v - 4294967295) := by
  rw [encElem4, dif_pos h]

/-- Final-chunk branch of the 4-byte element encoder. -/
theorem encElem4_base (v : Nat) (h : ¬ 4294967295 ≤ v) :
    encElem4 v = [v / 16777216, v / 65536 % 256, v / 256 % 256, v % 256] := by
  rw [encElem4, dif_neg h]

/-- Decoding the 4-byte chunks of one element flushes exactly once, with the
accumulated total mod 2^32. -/
theorem decodeLoop4_encElem4 : ∀ (v : Nat) (rest : List Nat) (acc : Nat),
    decodeLoop4 (encElem4 v ++ rest) acc = ((acc + v) % 4294967296) :: decodeLoop4 rest 0 := by
  intro v
  induction v using Nat.strong_induction_on with
  | _ v ih =>
    intro rest acc
    by_cases h : 4294967295 ≤ v
    · rw [encElem4_escape v h, List.cons_append, List.cons_append, List.cons_append,
        List.cons_append, decodeLoop4_cons4,
        if_pos (by norm_num :
          ((255 : Nat) * 16777216 + 255 * 65536 + 255 * 256 + 255) % 4294967296 = 4294967295)]
      have hih := ih (v - 4294967295) (by omega) rest
        ((acc + (255 * 16777216 + 255 * 65536 + 255 * 256 + 255) % 4294967296) % 4294967296)
      have harith : ((acc + (255 * 16777216 + 255 * 65536 + 255 * 256 + 255) % 4294967296)
            % 4294967296 + (v - 4294967295)) % 4294967296
          = (acc + v) % 4294967296 := by omega
      rw [harith] at hih
      exact hih
    · rw [encElem4_base v h]
      show decodeLoop4
        (v / 16777216 :: v / 65536 % 256 :: v / 256 % 256 :: v % 256 :: rest) acc = _
      rw [decodeLoop4_cons4]
      have hc : (v / 16777216 * 16777216 + v / 65536 % 256 * 65536 + v / 256 % 256 * 256
          + v % 256) % 4294967296 = v := by omega
      rw [hc]
      have hv : ¬ v = 4294967295 := by omega
      rw [if_neg hv]

/-- The 4-byte codec as a whole: decoding the encoding reduces every element
modulo 2^32. -/
theorem decodeVector4_encodeVector4 (l : List Nat) :
    decodeVector4 (encodeVector4 l) = l.map (fun v => v % 4294967296) := by
  induction l with
  | nil => rfl
  | cons v rest ih =>
    show decodeLoop4 (encElem4 v ++ encodeVector4 rest) 0 = _
    rw [decodeLoop4_encElem4]
    simpa using ih

/-- C1 (amended): for every sequence of non-negative integers in which each
element is below 2^32, decoding the encoding reproduces the sequence exactly,
at both the 2-byte and the 4-byte width.  The bound is forced by the decoders'
unsigned int accumulator (see the counterexample at 2^32). -/
theorem c1_roundtrip_below_2pow32 (l : List Nat) (h : ∀ x ∈ l, x < 4294967296) :
    decodeVector (encodeVector l) = l ∧ decodeVector4 (encodeVector4 l) = l := by
  have hmap : l.map (fun v => v % 4294967296) = l := by
    induction l with
    | nil => rfl
    | cons v rest ih =>
      rw [List.map_cons, Nat.mod_eq_of_lt (h v (by simp)),
        ih (fun x hx => h x (by simp [hx]))]
  exact ⟨(decodeVector_encodeVector l).trans hmap, (decodeVector4_encodeVector4 l).trans hmap⟩

/-- Witness for C1: the concrete sequence [0, 10, 65535, 4294967295] satisfies
the element bound and round-trips at both widths. -/
theorem c1_roundtrip_below_2pow32_witness :
    (∀ x ∈ [0, 10, 65535, 4294967295], x < 4294967296) ∧
    (decodeVector (encodeVector [0, 10, 65535, 4294967295]) = [0, 10, 65535, 4294967295] ∧
     decodeVector4 (encodeVector4 [0, 10, 65535, 4294967295]) = [0, 10, 65535, 4294967295]) :=
  ⟨by decide, c1_roundtrip_below_2pow32 [0, 10, 65535, 4294967295] (by decide)⟩

/-- C1 counterexample: the single-element sequence [2^32] does not round-trip
at either width.  At the 2-byte width its encoding is 65537 escape chunks
followed by the remainder 1; the decoder's 32-bit accumulator wraps to 0 and
the decoded sequence is [0].  The 4-byte width likewise decodes to [0]. -/
theorem c1_counterexample :
    decodeVector (encodeVector [4294967296]) ≠ [4294967296] ∧
    decodeVector4 (encodeVector4 [4294967296]) ≠ [4294967296] := by
  rw [decodeVector_encodeVector, decodeVector4_encodeVector4]
  decide

/-! Lemmas about the long-option count (claim C8). -/

/-- The recount scan equals the two filter counts, for any starting value. -/
theorem recountLongs_aux : ∀ (vals : Schema) (acc : Nat),
    vals.foldl (fun acc p =>
      let acc1 := if p.2.long.isSome then acc + 1 else acc
      if p.2.long_off.isSome then acc1 + 1 else acc1) acc
    = acc + specLongCount vals := by
  intro vals
  induction vals with
  | nil => intro acc; simp [specLongCount]
  | cons p rest ih =>
    intro acc
    rw [List.foldl_cons, ih]
    simp only [specLongCount, List.filter_cons]
    by_cases h1 : p.2.long.isSome <;> by_cases h2 : p.2.long_off.isSome <;>
      simp [h1, h2, specLongCount] <;> omega

/-- addOption's recount equals the spec count. -/
theorem recountLongs_eq_spec (vals : Schema) : recountLongs vals = specLongCount vals := by
  have h := recountLongs_aux vals 0
  simpa [recountLongs] using h

/-- C8 (amended): after every nonempty sequence of addOption calls, the stored
long_count equals the number of registered options with a "long" flag plus the
number with a "long_off" flag, because each addOption recounts by a full scan.
(The constructor alone does not establish this: see the counterexample, where
the freshly constructed state stores 2 against 3 actual long flags.) -/
theorem c8_longcount_after_addOption (c : ConfigState) (n : String) (o : OptEntry)
    (calls : List (String × OptEntry)) :
    (applyAdds (addOption c n o) calls).long_count
      = specLongCount (applyAdds (addOption c n o) calls).vals := by
  induction calls generalizing c n o with
  | nil =>
    show (addOption c n o).long_count = specLongCount (addOption c n o).vals
    simp [addOption, recountLongs_eq_spec]
  | cons p rest ih =>
    show (applyAdds (addOption (addOption c n o) p.1 p.2) rest).long_count = _
    exact ih (addOption c n o) p.1 p.2

/-- C8 counterexample: the constructor Util::Config(cmd, version) stores
long_count = 2, but it registers three options carrying a "long" flag
(version, help, debug) and none with "long_off", so the stored count disagrees
with the actual count until the first addOption call. -/
theorem c8_counterexample :
    (mkConfig "application" "1.0" "2.0.2" 4).long_count = 2
    ∧ specLongCount (mkConfig "application" "1.0" "2.0.2" 4).vals = 3
    ∧ (2 : Nat) ≠ 3 := by
  decide

/-- C4: getOption on a name absent from the registry stops the process with
code 37 (Except.error 37 in the embedding), and so do the typed accessors
getString, getInteger and getBool built on it; on any registered name
getOption returns normally. -/
theorem c4_getOption_exit37 (vals : Schema) (n : String) :
    (isMember vals n = false →
       getOptionM vals n = Except.error 37
       ∧ getStringM vals n = Except.error 37
       ∧ getIntegerM vals n = Except.error 37
       ∧ getBoolM vals n = Except.error 37)
    ∧ (isMember vals n = true → ∃ r, getOptionM vals n = Except.ok r) := by
  constructor
  · intro h
    have hl : lookupOpt vals n = none := by
      cases hc : lookupOpt vals n with
      | none => rfl
      | some e => rw [isMember, hc] at h; cases h
    simp [getOptionM, hl, getStringM, getIntegerM, getBoolM, Except.map]
  · intro h
    cases hc : lookupOpt vals n with
    | none => rw [isMember, hc] at h; cases h
    | some e =>
      exact ⟨((ensureValue e).value.getD [], updateOpt vals n ensureValue),
        by simp [getOptionM, hc]⟩

/-- Witness for C4: the empty registry with the name "port": the name is
unregistered and getOption stops with 37. -/
theorem c4_getOption_exit37_witness :
    isMember [] "port" = false ∧ getOptionM [] "port" = Except.error 37 :=
  ⟨by decide, ((c4_getOption_exit37 [] "port").1 (by decide)).1⟩

/-! Lemmas about the positional-assignment loop (claims C2 and C6). -/

/-- The positional loop never changes the set or order of registry keys. -/
theorem keys_appendPositional (vals : Schema) (i : Int) (t : String) :
    (appendPositional vals i t).map Prod.fst = vals.map Prod.fst := by
  induction vals with
  | nil => rfl
  | cons p rest ih =>
    obtain ⟨k, e⟩ := p
    by_cases h : e.arg_num = some i <;> simp [appendPositional, h, ih]

/-- The positional loop never changes which entry is the first with a given
arg_num (it only appends to value arrays). -/
theorem firstArgNumName_appendPositional (vals : Schema) (i : Int) (t : String) (j : Int) :
    firstArgNumName (appendPositional vals i t) j = firstArgNumName vals j := by
  induction vals with
  | nil => rfl
  | cons p rest ih =>
    obtain ⟨k, e⟩ := p
    by_cases h : e.arg_num = some i
    · simp only [appendPositional, if_pos h, firstArgNumName, List.find?_cons, appendValue]
      cases hij : (e.arg_num == some j) <;> simp [h, hij] at hij ⊢
    · simp only [appendPositional, if_neg h]
      simp only [firstArgNumName, List.find?_cons] at ih ⊢
      cases hp : (e.arg_num == some j) <;> simp [hp, ih]

/-- The first arg_num match names a registered key. -/
theorem firstArgNumName_mem (vals : Schema) (i : Int) (m : String)
    (h : firstArgNumName vals i = some m) : m ∈ vals.map Prod.fst := by
  unfold firstArgNumName at h
  cases hf : vals.find? (fun p => p.2.arg_num == some i) with
  | none => rw [hf] at h; cases h
  | some p =>
    rw [hf] at h
    cases h
    exact List.mem_map_of_mem Prod.fst (List.mem_of_find?_eq_some hf)

/-- Effect of one positional step on each entry (duplicate-free registries,
which is what the std::map backing guarantees): the first entry whose arg_num
matches the counter gains the token, every other entry is untouched — the
entry's existing value array plays no part. -/
theorem lookupOpt_appendPositional (vals : Schema) (i : Int) (t : String) (n : String)
    (hnd : (vals.map Prod.fst).Nodup) :
    lookupOpt (appendPositional vals i t) n
      = (lookupOpt vals n).map (fun e =>
          if firstArgNumName vals i = some n then appendValue e (JVal.str t) else e) := by
  induction vals with
  | nil => rfl
  | cons p rest ih =>
    obtain ⟨k, e⟩ := p
    simp only [List.map_cons, List.nodup_cons] at hnd
    by_cases hm : e.arg_num = some i
    · have hfa : firstArgNumName ((k, e) :: rest) i = some k := by
        simp [firstArgNumName, List.find?_cons, hm]
      rw [hfa]
      by_cases hn : k = n
      · subst hn
        simp [appendPositional, hm, lookupOpt]
      · simp only [appendPositional, if_pos hm, lookupOpt, if_neg hn, Option.map]
        cases hl : lookupOpt rest n with
        | none => rfl
        | some e2 =>
          have : ¬ (some k = some n) := by simpa using hn
          simp [this]
    · have hfa : firstArgNumName ((k, e) :: rest) i = firstArgNumName rest i := by
        have : (e.arg_num == some i) = false := by simpa using hm
        simp [firstArgNumName, List.find?_cons, this]
      rw [hfa]
      by_cases hn : k = n
      · subst hn
        simp only [appendPositional, if_neg hm, lookupOpt, if_pos rfl]
        have hnone : firstArgNumName rest i ≠ some k := by
          intro hcontra
          exact hnd.1 (firstArgNumName_mem rest i k hcontra)
        simp [hnone]
      · simp only [appendPositional, if_neg hm, lookupOpt, if_neg hn]
        exact ih hnd.2

/-- tokensForFrom only inspects arg_num members, which the loop preserves. -/
theorem tokensForFrom_appendPositional (rest : List String) : ∀ (vals : Schema) (i : Int)
    (t : String) (s : Int) (n : String),
    tokensForFrom (appendPositional vals i t) rest s n = tokensForFrom vals rest s n := by
  induction rest with
  | nil => intros; rfl
  | cons tok more ih =>
    intro vals i t s n
    simp only [tokensForFrom, firstArgNumName_appendPositional, ih]

/-- Full characterisation of the positional loop from any start index: each
entry ends with its original value array extended by exactly the tokens whose
index's first arg_num match is that entry. -/
theorem lookupOpt_assignPositionals (tokens : List String) : ∀ (vals : Schema) (s : Int)
    (n : String), (vals.map Prod.fst).Nodup →
    lookupOpt (assignPositionals vals tokens s) n
      = (lookupOpt vals n).map (fun e => appendAll e (tokensForFrom vals tokens s n)) := by
  induction tokens with
  | nil =>
    intro vals s n _
    show lookupOpt vals n = _
    cases lookupOpt vals n <;> simp [tokensForFrom, appendAll]
  | cons tok rest ih =>
    intro vals s n hnd
    show lookupOpt (assignPositionals (appendPositional vals s tok) rest (s + 1)) n = _
    have hnd2 : ((appendPositional vals s tok).map Prod.fst).Nodup := by
      rw [keys_appendPositional]; exact hnd
    rw [ih (appendPositional vals s tok) (s + 1) n hnd2,
      lookupOpt_appendPositional vals s tok n hnd,
      tokensForFrom_appendPositional rest vals s tok (s + 1) n]
    cases hl : lookupOpt vals n with
    | none => rfl
    | some e =>
      simp only [Option.map_some']
      by_cases hf : firstArgNumName vals s = some n
      · simp [hf, tokensForFrom, appendAll]
      · simp [hf, tokensForFrom, appendAll]

/-- C2 (amended): after flag parsing, the positional loop hands token number i
(counting from 1) to the first schema entry, in registry order, whose declared
positional index equals i, regardless of whether that entry already has a
nonempty value array — the token is appended to whatever values are present.
An entry's preset value excludes it only from the required-count (arg_count)
computation, not from positional assignment. -/
theorem c2_positional_assignment (vals : Schema) (tokens : List String) (n : String)
    (hnd : (vals.map Prod.fst).Nodup) :
    lookupOpt (assignPositionals vals tokens 1) n
      = (lookupOpt vals n).map (fun e => appendAll e (tokensForFrom vals tokens 1 n)) :=
  lookupOpt_assignPositionals tokens vals 1 n hnd

/-- Witness for C2: the concrete single-entry registry with a preset value and
one positional token. -/
theorem c2_positional_assignment_witness :
    ((c2vals.map Prod.fst).Nodup) ∧
    lookupOpt (assignPositionals c2vals ["x"] 1) "count"
      = (lookupOpt c2vals "count").map
          (fun e => appendAll e (tokensForFrom c2vals ["x"] 1 "count")) :=
  ⟨by decide, c2_positional_assignment c2vals ["x"] "count" (by decide)⟩

/-- C2 counterexample: the entry "count" has positional index 1 and the preset
value ["preset"], yet the positional loop does not skip it: assigning the
token "x" changes the entry (its value array becomes ["preset", "x"]),
contradicting the claim that entries with a nonempty value list are skipped. -/
theorem c2_counterexample :
    valueNonempty ((lookupOpt c2vals "count").getD {}) = true ∧
    lookupOpt (assignPositionals c2vals ["x"] 1) "count" ≠ lookupOpt c2vals "count" := by
  decide

/-! Lemmas for the parseArgs failure condition (claim C6). -/

/-- The arg_count fold equals the spec's maximum, from any start value. -/
theorem argCountOf_aux : ∀ (vals : Schema) (acc : Int),
    vals.foldl (fun acc p =>
      match p.2.arg_num with
      | some k => if valueNonempty p.2 then acc else if k > acc then k else acc
      | none => acc) acc
    = (vals.filterMap (fun p => if valueNonempty p.2 then none else p.2.arg_num)).foldl
        max acc := by
  intro vals
  induction vals with
  | nil => intro acc; rfl
  | cons p rest ih =>
    intro acc
    rw [List.foldl_cons, List.filterMap_cons]
    cases ha : p.2.arg_num with
    | none => cases hv : valueNonempty p.2 <;> simp [ha, hv, ih]
    | some k =>
      cases hv : valueNonempty p.2
      · have hmax : (if k > acc then k else acc) = max acc k := by
          split <;> omega
        simp [ha, hv, hmax, ih]
      · simp [ha, hv, ih]

/-- The source's arg_count is the highest positional index among entries that
still lack a value (0 when there are none). -/
theorem argCountOf_eq_spec (vals : Schema) : argCountOf vals = specHighestNeeded vals := by
  have h := argCountOf_aux vals 0
  simpa [argCountOf, specHighestNeeded] using h

/-- parseArgs returns false exactly when fewer positional tokens were supplied
than the highest positional index among entries that still needed one. -/
theorem parseArgs_false_iff (vals : Schema) (tokens : List String) :
    (parseArgsModel vals tokens).1 = false ↔
      (tokens.length : Int) < specHighestNeeded vals := by
  have hs := argCountOf_eq_spec vals
  simp only [parseArgsModel]
  by_cases h : (1 + (tokens.length : Int)) ≤ argCountOf vals
  · simp only [if_pos h]
    constructor
    · intro _
      omega
    · intro _
      simp
  · simp only [if_neg h]
    constructor
    · intro hcontra
      simp at hcontra
    · intro hlt
      exfalso
      omega

/-- The literal scenario registry is exactly what addOption("count", ...) on
the constructor state produces. -/
theorem c6vals_eq_addOption :
    c6vals = (addOption (mkConfig "testcmd" "1.0" "2.0.2" 4) "count"
      { arg_num := some 1, arg := some "string", help := "The count." }).vals := by
  have h1 : ¬ ("count" < "cmd") := by simp only [String.lt_iff_toList_lt]; decide
  have h2 : ¬ ("count" = "cmd") := by decide
  have h3 : ("count" < "debug") := by simp only [String.lt_iff_toList_lt]; decide
  simp [c6vals, addOption, mkConfig, setOpt, h1, h2, h3]

/-- C6: parseArgs returns false (a plain return value, not a process stop)
exactly when the positional token count falls short of the highest positional
index still needing a value; and in the concrete scenario — registry with one
option "count" at positional index 1 and no preset value — one token "42"
parses true with getString("count") = "42", while zero tokens parse false. -/
theorem c6_parseArgs_positional_failure :
    (∀ (vals : Schema) (tokens : List String),
       ((parseArgsModel vals tokens).1 = false ↔
         (tokens.length : Int) < specHighestNeeded vals))
    ∧ (parseArgsModel c6vals ["42"]).1 = true
    ∧ getStringM (parseArgsModel c6vals ["42"]).2 "count"
        = Except.ok ("42", (parseArgsModel c6vals ["42"]).2)
    ∧ (parseArgsModel c6vals []).1 = false :=
  ⟨parseArgs_false_iff, by decide, by decide, by decide⟩

/-- C5: the help flag code 'h' and the unrecognized-option code '?' print the
help text, then (switch fallthrough) the version banner, then stop the process
with status 1; the version flag code 'v' prints the version banner and stops
with status 1 — for every registry state and option argument. -/
theorem c5_help_version_exit (vals : Schema) (oa : String) :
    processOpt vals 'h' oa
      = Except.error (1, [OutEvent.helpText, OutEvent.versionBanner])
    ∧ processOpt vals '?' oa
      = Except.error (1, [OutEvent.helpText, OutEvent.versionBanner])
    ∧ processOpt vals 'v' oa = Except.error (1, [OutEvent.versionBanner]) := by
  refine ⟨?_, ?_, ?_⟩ <;> simp [processOpt]

/-- C3 (amended): when both "listen_port" and "listen_interface" are
registered the resolved listener is the TCP one, regardless of a registered
"socket" option (the TCP branch is a second if that overwrites the local
socket, so TCP — not the local socket — takes precedence when both are
present); the local socket is used only when "socket" is present and the TCP
pair is not complete; with neither, nothing is resolved; and whenever
resolution yields nothing or the resolved listener does not connect, the serve
functions return the value 1 without stopping the process. -/
theorem c3_listener_resolution (tmp : String) (vals : Schema)
    (connects : ListenerSpec → Bool) (sp : ListenerSpec) :
    ((isMember vals "listen_port" && isMember vals "listen_interface") = true →
       resolveListener tmp vals
         = some (ListenerSpec.tcp (readIntPure vals "listen_port")
             (readStringPure vals "listen_interface")))
    ∧ (isMember vals "socket" = true →
       (isMember vals "listen_port" && isMember vals "listen_interface") = false →
       resolveListener tmp vals
         = some (ListenerSpec.localSock (tmp ++ readStringPure vals "socket")))
    ∧ (isMember vals "socket" = false →
       (isMember vals "listen_port" && isMember vals "listen_interface") = false →
       resolveListener tmp vals = none)
    ∧ (resolveListener tmp vals = none →
       serveSocketHead connects tmp vals = Sum.inl 1)
    ∧ (resolveListener tmp vals = some sp → connects sp = false →
       serveSocketHead connects tmp vals = Sum.inl 1) := by
  refine ⟨?_, ?_, ?_, ?_, ?_⟩
  · intro h
    simp [resolveListener, h]
  · intro hs h
    simp [resolveListener, h, hs]
  · intro hs h
    simp [resolveListener, h, hs]
  · intro h
    simp [serveSocketHead, h]
  · intro h hc
    simp [serveSocketHead, h, hc]

/-- Witness for C3: on the three-option registry the TCP conjunct applies. -/
theorem c3_listener_resolution_witness :
    (isMember c3vals "listen_port" && isMember c3vals "listen_interface") = true ∧
    resolveListener "/tmp/" c3vals
      = some (ListenerSpec.tcp (readIntPure c3vals "listen_port")
          (readStringPure c3vals "listen_interface")) :=
  ⟨by decide,
   (c3_listener_resolution "/tmp/" c3vals (fun _ => true)
      (ListenerSpec.tcp 0 "")).1 (by decide)⟩

/-- C3 counterexample: with "socket" registered alongside "listen_port" and
"listen_interface", the resolved listener is the TCP one, not the local
socket: the claim's precedence is reversed. -/
theorem c3_counterexample :
    isMember c3vals "socket" = true ∧
    isLocalSpec (resolveListener "/tmp/" c3vals) = false ∧
    resolveListener "/tmp/" c3vals = some (ListenerSpec.tcp 8080 "0.0.0.0") := by
  decide

/-- C9: with the activation flag already false at entry, both dispatch loops
skip the body entirely (no accept, no spawn or fork, no sleep), close the
listener and return 0 at once, for every environment and any fuel. -/
theorem c9_inactive_dispatch_returns (env : SrvEnv) (fuel : Nat)
    (h : env.active 0 = false) :
    threadServer env 0 (fuel + 1) = some ([SrvEvent.closedListener], 0)
    ∧ forkServer env 0 (fuel + 1) = some ([SrvEvent.closedListener], 0) := by
  constructor
  · simp [threadServer, h]
  · simp [forkServer, h]

/-- Witness for C9: the concrete inactive environment with fuel 6. -/
theorem c9_inactive_dispatch_returns_witness :
    c9env.active 0 = false ∧
    threadServer c9env 0 6 = some ([SrvEvent.closedListener], 0) ∧
    forkServer c9env 0 6 = some ([SrvEvent.closedListener], 0) :=
  ⟨rfl, (c9_inactive_dispatch_returns c9env 5 rfl).1,
    (c9_inactive_dispatch_returns c9env 5 rfl).2⟩

/-- The running maximum never decreases below its start value. -/
theorem computeLongest_mono (vals : Schema) : ∀ acc,
    acc ≤ vals.foldl (fun acc p =>
      max (max (max acc (flagMeasure p.2)) (offMeasure p.2)) (posMeasure p)) acc := by
  induction vals with
  | nil => intro acc; simp
  | cons q rest ih =>
    intro acc
    rw [List.foldl_cons]
    calc acc ≤ max (max (max acc (flagMeasure q.2)) (offMeasure q.2)) (posMeasure q) := by
          omega
      _ ≤ _ := ih _

/-- Every registered entry's measures are below the computed width. -/
theorem computeLongest_ge (vals : Schema) (p : String × OptEntry) (hp : p ∈ vals) : ∀ acc,
    max (flagMeasure p.2) (max (offMeasure p.2) (posMeasure p))
      ≤ vals.foldl (fun acc q =>
          max (max (max acc (flagMeasure q.2)) (offMeasure q.2)) (posMeasure q)) acc := by
  induction vals with
  | nil => cases hp
  | cons q rest ih =>
    intro acc
    rw [List.foldl_cons]
    rcases List.mem_cons.mp hp with h | h
    · subst h
      calc max (flagMeasure p.2) (max (offMeasure p.2) (posMeasure p))
            ≤ max (max (max acc (flagMeasure p.2)) (offMeasure p.2)) (posMeasure p) := by
              omega
        _ ≤ _ := computeLongest_mono rest _
    · exact ih h _

/-- Padding to a width at least the field's length yields exactly that width. -/
theorem padTo_length (f : String) (w : Nat) (h : f.length ≤ w) : (padTo f w).length = w := by
  unfold padTo
  rw [String.length_append]
  simp only [String.length, List.length_replicate]
  simp only [String.length] at h
  omega

/-- The rendered on-flag text is never longer than its measure (the measure
carries a margin of 2: 2 + long + 3 + short against long + 4 + short + 3,
2 + long against long + 4, 1 + short against short + 3). -/
theorem flagText_length_le (e : OptEntry) (f : String) (h : flagText e = some f) :
    f.length ≤ flagMeasure e := by
  unfold flagText at h
  cases hl : e.long with
  | some l =>
    cases hs : e.short with
    | some s =>
      rw [hl, hs] at h
      cases h
      simp only [flagMeasure, hl, hs, String.length_append]
      rw [show ("--" : String).length = 2 from rfl,
        show (", -" : String).length = 3 from rfl]
      omega
    | none =>
      rw [hl, hs] at h
      cases h
      simp only [flagMeasure, hl, hs, String.length_append]
      rw [show ("--" : String).length = 2 from rfl]
      omega
  | none =>
    cases hs : e.short with
    | some s =>
      rw [hl, hs] at h
      cases h
      simp only [flagMeasure, hl, hs, String.length_append]
      rw [show ("-" : String).length = 1 from rfl]
      omega
    | none =>
      rw [hl, hs] at h
      cases h

/-- The rendered off-flag text is never longer than its measure. -/
theorem offText_length_le (e : OptEntry) (f : String) (h : offText e = some f) :
    f.length ≤ offMeasure e := by
  unfold offText at h
  cases hl : e.long_off with
  | some l =>
    cases hs : e.short_off with
    | some s =>
      rw [hl, hs] at h
      cases h
      simp only [offMeasure, hl, hs, String.length_append]
      rw [show ("--" : String).length = 2 from rfl,
        show (", -" : String).length = 3 from rfl]
      omega
    | none =>
      rw [hl, hs] at h
      cases h
      simp only [offMeasure, hl, hs, String.length_append]
      rw [show ("--" : String).length = 2 from rfl]
      omega
  | none =>
    cases hs : e.short_off with
    | some s =>
      rw [hl, hs] at h
      cases h
      simp only [offMeasure, hl, hs, String.length_append]
      rw [show ("-" : String).length = 1 from rfl]
      omega
    | none =>
      rw [hl, hs] at h
      cases h

/-- C7: in every schema, every help line printed by printHelp has its padded
flag/positional field of exactly the shared width "longest" — the maximum over
all options of the formatted flag and positional measures — so every line's
description begins at that same column. -/
theorem c7_help_alignment (vals : Schema) (hl : HelpLine)
    (h : hl ∈ printHelpLines vals) :
    hl.fld.length = computeLongest vals := by
  unfold printHelpLines at h
  rw [List.mem_flatMap] at h
  obtain ⟨p, hp, hmem⟩ := h
  have hb : max (flagMeasure p.2) (max (offMeasure p.2) (posMeasure p))
      ≤ computeLongest vals := computeLongest_ge vals p hp 0
  unfold entryLines at hmem
  rcases List.mem_append.mp hmem with hmem1 | hpos
  · rcases List.mem_append.mp hmem1 with hf | ho
    · cases hft : flagText p.2 with
      | none => rw [hft] at hf; cases hf
      | some f =>
        rw [hft] at hf
        rw [List.mem_singleton] at hf
        subst hf
        exact padTo_length f _ (le_trans (flagText_length_le p.2 f hft) (by omega))
    · cases hot : offText p.2 with
      | none => rw [hot] at ho; cases ho
      | some f =>
        rw [hot] at ho
        rw [List.mem_singleton] at ho
        subst ho
        exact padTo_length f _ (le_trans (offText_length_le p.2 f hot) (by omega))
  · cases han : p.2.arg_num.isSome with
    | false => rw [han] at hpos; simp at hpos
    | true =>
      rw [han] at hpos
      simp only [if_pos] at hpos
      rw [List.mem_singleton] at hpos
      subst hpos
      have hpm : posMeasure p = p.1.length + 3 := by simp [posMeasure, han]
      exact padTo_length p.1 _ (by omega)

/-- Witness for C7: in the concrete schema the width is 9 ("--alpha" plus its
margin of 2) and the "--alpha" line is padded to exactly that width. -/
theorem c7_help_alignment_witness :
    ({ fld := "--alpha  ", desc := "Alpha option." } : HelpLine) ∈ printHelpLines c7vals
    ∧ (HelpLine.fld { fld := "--alpha  ", desc := "Alpha option." }).length
        = computeLongest c7vals :=
  ⟨by decide, c7_help_alignment c7vals _ (by decide)⟩

/-! Frame lemmas for the registry operations. -/

/-- updateOpt at the touched key. -/
theorem lookupOpt_updateOpt_self (vals : Schema) (n : String) (f : OptEntry → OptEntry) :
    lookupOpt (updateOpt vals n f) n = (lookupOpt vals n).map f := by
  induction vals with
  | nil => rfl
  | cons p rest ih =>
    obtain ⟨k, e⟩ := p
    by_cases h : k = n
    · simp [updateOpt, h, lookupOpt]
    · simp [updateOpt, h, lookupOpt, ih]

/-- updateOpt leaves other keys alone. -/
theorem lookupOpt_updateOpt_ne (vals : Schema) (n m : String) (hnm : m ≠ n)
    (f : OptEntry → OptEntry) :
    lookupOpt (updateOpt vals n f) m = lookupOpt vals m := by
  induction vals with
  | nil => rfl
  | cons p rest ih =>
    obtain ⟨k, e⟩ := p
    by_cases h : k = n
    · subst h
      have : ¬ (k = m) := fun hc => hnm (hc ▸ rfl)
      simp [updateOpt, lookupOpt, this]
    · by_cases h2 : k = m
      · subst h2
        simp only [updateOpt, if_neg hnm]
        simp [lookupOpt]
      · simp [updateOpt, h, lookupOpt, h2, ih]

/-- removeOpt erases the removed key. -/
theorem lookupOpt_removeOpt_self (vals : Schema) (n : String) :
    lookupOpt (removeOpt vals n) n = none := by
  induction vals with
  | nil => rfl
  | cons p rest ih =>
    obtain ⟨k, e⟩ := p
    by_cases h : k = n
    · simp [removeOpt, List.filter_cons, h] at ih ⊢
      exact ih
    · have : (k != n) = true := by simpa using h
      simp [removeOpt, List.filter_cons, this, lookupOpt, h] at ih ⊢
      exact ih

/-- removeOpt leaves other keys alone. -/
theorem lookupOpt_removeOpt_ne (vals : Schema) (n m : String) (hnm : m ≠ n) :
    lookupOpt (removeOpt vals n) m = lookupOpt vals m := by
  induction vals with
  | nil => rfl
  | cons p rest ih =>
    obtain ⟨k, e⟩ := p
    by_cases h : k = n
    · subst h
      have hkm : ¬ (k = m) := fun hc => hnm (hc ▸ rfl)
      simp [removeOpt, List.filter_cons, lookupOpt, hkm] at ih ⊢
      exact ih
    · have : (k != n) = true := by simpa using h
      by_cases h2 : k = m
      · subst h2
        have hmn : (k != n) = true := this
        simp only [removeOpt, List.filter_cons, hmn]
        simp [lookupOpt]
      · simp [removeOpt, List.filter_cons, this, lookupOpt, h2] at ih ⊢
        exact ih

/-- A false isMember means an absent entry. -/
theorem isMember_false_lookup (vals : Schema) (n : String) (h : isMember vals n = false) :
    lookupOpt vals n = none := by
  unfold isMember at h
  cases hl : lookupOpt vals n with
  | none => rfl
  | some e => rw [hl] at h; cases h

/-- The getString step ensures a value array at its own key. -/
theorem lookupOpt_getStringStep_self (vals : Schema) (n : String) :
    lookupOpt (getStringStep vals n).2 n = (lookupOpt vals n).map ensureValue := by
  unfold getStringStep
  cases hl : lookupOpt vals n with
  | none => simp [hl]
  | some e => simp [lookupOpt_updateOpt_self, hl]

/-- The getString step leaves other keys alone. -/
theorem lookupOpt_getStringStep_ne (vals : Schema) (n m : String) (h : m ≠ n) :
    lookupOpt (getStringStep vals n).2 m = lookupOpt vals m := by
  unfold getStringStep
  cases hl : lookupOpt vals n with
  | none => simp
  | some e => simp [lookupOpt_updateOpt_ne vals n m h]

/-- The getBool step ensures a value array at its own key. -/
theorem lookupOpt_getBoolStep_self (vals : Schema) (n : String) :
    lookupOpt (getBoolStep vals n).2 n = (lookupOpt vals n).map ensureValue := by
  unfold getBoolStep
  cases hl : lookupOpt vals n with
  | none => simp [hl]
  | some e => simp [lookupOpt_updateOpt_self, hl]

/-- The getBool step leaves other keys alone. -/
theorem lookupOpt_getBoolStep_ne (vals : Schema) (n m : String) (h : m ≠ n) :
    lookupOpt (getBoolStep vals n).2 m = lookupOpt vals m := by
  unfold getBoolStep
  cases hl : lookupOpt vals n with
  | none => simp
  | some e => simp [lookupOpt_updateOpt_ne vals n m h]

/-- The boolean the daemonize block tests is daemonTrueNow. -/
theorem getBoolStep_fst_daemonize (vals : Schema) :
    (getBoolStep vals "daemonize").1 = daemonTrueNow vals := by
  unfold getBoolStep daemonTrueNow
  cases hl : lookupOpt vals "daemonize" <;> simp

/-- After the username block the "username" entry is gone. -/
theorem usernamePhase_username (vals : Schema) :
    lookupOpt (usernamePhase vals).1 "username" = none := by
  unfold usernamePhase
  by_cases h : isMember vals "username"
  · simp [h, lookupOpt_removeOpt_self]
  · simp [h, isMember_false_lookup vals "username" (by simpa using h)]

/-- The username block touches no other entry. -/
theorem usernamePhase_ne (vals : Schema) (m : String) (h : m ≠ "username") :
    lookupOpt (usernamePhase vals).1 m = lookupOpt vals m := by
  unfold usernamePhase
  by_cases hm : isMember vals "username"
  · simp only [hm, if_pos]
    rw [lookupOpt_removeOpt_ne _ _ _ h, lookupOpt_getStringStep_ne _ _ _ h]
  · simp [hm]

/-- What the daemonize block leaves at "daemonize": removed exactly when the
current value reads true; otherwise the entry stays, with a placeholder value
array ensured. -/
theorem daemonPhase_daemonize (vals : Schema) :
    lookupOpt (daemonPhase vals).1 "daemonize"
      = (if daemonTrueNow vals then none
         else (lookupOpt vals "daemonize").map ensureValue) := by
  unfold daemonPhase
  by_cases hm : isMember vals "daemonize"
  · rw [if_pos hm]
    simp only [getBoolStep_fst_daemonize]
    by_cases hb : daemonTrueNow vals
    · simp only [hb, if_true]
      rw [lookupOpt_removeOpt_self]
    · simp only [hb, Bool.false_eq_true, if_false]
      rw [lookupOpt_getBoolStep_self]
  · have hl := isMember_false_lookup vals "daemonize" (by simpa using hm)
    have hd : daemonTrueNow vals = false := by
      unfold daemonTrueNow
      rw [hl]
    simp [hm, hd, hl]

/-- What the daemonize block leaves at "logfile": on the true branch the
logfile read ensures a value array in a registered "logfile" entry (the
placeholder mutation); otherwise the entry is untouched. -/
theorem daemonPhase_logfile (vals : Schema) :
    lookupOpt (daemonPhase vals).1 "logfile"
      = (if daemonTrueNow vals then (lookupOpt vals "logfile").map ensureValue
         else lookupOpt vals "logfile") := by
  have hne : ("logfile" : String) ≠ "daemonize" := by decide
  unfold daemonPhase
  by_cases hm : isMember vals "daemonize"
  · rw [if_pos hm]
    simp only [getBoolStep_fst_daemonize]
    by_cases hb : daemonTrueNow vals
    · simp only [hb, if_true]
      by_cases hlf : isMember (getBoolStep vals "daemonize").2 "logfile"
      · rw [if_pos hlf]
        rw [lookupOpt_removeOpt_ne _ _ _ hne, lookupOpt_getStringStep_self,
          lookupOpt_getBoolStep_ne _ _ _ hne]
      · rw [if_neg hlf]
        rw [lookupOpt_removeOpt_ne _ _ _ hne, lookupOpt_getBoolStep_ne _ _ _ hne]
        have hnolf : lookupOpt vals "logfile" = none := by
          have hx := isMember_false_lookup _ "logfile" (by simpa using hlf)
          rwa [lookupOpt_getBoolStep_ne _ _ _ hne] at hx
        simp [hnolf]
    · simp only [hb, Bool.false_eq_true, if_false]
      rw [lookupOpt_getBoolStep_ne _ _ _ hne]
  · have hl := isMember_false_lookup vals "daemonize" (by simpa using hm)
    have hd : daemonTrueNow vals = false := by
      unfold daemonTrueNow
      rw [hl]
    simp [hm, hd]

/-- The daemonize block touches nothing besides "daemonize" and "logfile". -/
theorem daemonPhase_ne (vals : Schema) (m : String) (h1 : m ≠ "daemonize")
    (h2 : m ≠ "logfile") :
    lookupOpt (daemonPhase vals).1 m = lookupOpt vals m := by
  unfold daemonPhase
  by_cases hm : isMember vals "daemonize"
  · rw [if_pos hm]
    by_cases hb : (getBoolStep vals "daemonize").1
    · simp only [hb, if_true]
      by_cases hlf : isMember (getBoolStep vals "daemonize").2 "logfile"
      · rw [if_pos hlf]
        rw [lookupOpt_removeOpt_ne _ _ _ h1, lookupOpt_getStringStep_ne _ _ _ h2,
          lookupOpt_getBoolStep_ne _ _ _ h1]
      · rw [if_neg hlf]
        rw [lookupOpt_removeOpt_ne _ _ _ h1, lookupOpt_getBoolStep_ne _ _ _ h1]
    · simp only [hb, Bool.false_eq_true, if_false]
      rw [lookupOpt_getBoolStep_ne _ _ _ h1]
  · simp [hm]

/-- The username block does not change the daemonize reading. -/
theorem daemonTrueNow_usernamePhase (vals : Schema) :
    daemonTrueNow (usernamePhase vals).1 = daemonTrueNow vals := by
  unfold daemonTrueNow
  rw [usernamePhase_ne vals "daemonize" (by decide)]

/-- C10 (amended): after activate, is_active is true and "username" is no
longer registered; "daemonize" is removed exactly when it was registered with
a true current value, a false-valued one staying registered (with a null
placeholder ensured in its value array when it had none); all entries other
than "username", "daemonize" and "logfile" are unchanged — but a registered
"logfile" entry is not: when the true daemonize branch runs, the
getString("logfile") test inserts a null placeholder into a logfile entry that
had no value array yet. -/
theorem c10_activate_effects (vals : Schema) :
    (activate vals).is_active = true
    ∧ lookupOpt (activate vals).vals "username" = none
    ∧ lookupOpt (activate vals).vals "daemonize"
        = (if daemonTrueNow vals then none
           else (lookupOpt vals "daemonize").map ensureValue)
    ∧ lookupOpt (activate vals).vals "logfile"
        = (if daemonTrueNow vals then (lookupOpt vals "logfile").map ensureValue
           else lookupOpt vals "logfile")
    ∧ (∀ n, n ≠ "username" → n ≠ "daemonize" → n ≠ "logfile" →
         lookupOpt (activate vals).vals n = lookupOpt vals n) := by
  have hvals : (activate vals).vals = (daemonPhase (usernamePhase vals).1).1 := rfl
  refine ⟨rfl, ?_, ?_, ?_, ?_⟩
  · rw [hvals, daemonPhase_ne _ _ (by decide) (by decide), usernamePhase_username]
  · rw [hvals, daemonPhase_daemonize, daemonTrueNow_usernamePhase,
      usernamePhase_ne vals "daemonize" (by decide)]
  · rw [hvals, daemonPhase_logfile, daemonTrueNow_usernamePhase,
      usernamePhase_ne vals "logfile" (by decide)]
  · intro n h1 h2 h3
    rw [hvals, daemonPhase_ne _ _ h2 h3, usernamePhase_ne _ _ h1]

/-- Witness for C10: the frame conjunct at the untouched name "cmd". -/
theorem c10_activate_effects_witness :
    (("cmd" : String) ≠ "username" ∧ ("cmd" : String) ≠ "daemonize"
      ∧ ("cmd" : String) ≠ "logfile")
    ∧ lookupOpt (activate c10vals).vals "cmd" = lookupOpt c10vals "cmd" :=
  ⟨⟨by decide, by decide, by decide⟩,
   (c10_activate_effects c10vals).2.2.2.2 "cmd" (by decide) (by decide) (by decide)⟩

/-- C10 counterexample: with daemonize true and a value-less logfile entry,
activate changes the logfile entry (the getString("logfile") test inserts a
null placeholder into its value array), so "all other schema entries are
unchanged by activate()" fails as stated. -/
theorem c10_counterexample :
    daemonTrueNow c10vals = true ∧
    lookupOpt (activate c10vals).vals "logfile" ≠ lookupOpt c10vals "logfile" := by
  decide
